import Mathlib

/-!
Shallow embedding of the godot-bevy-quinn session and state-synchronization
protocol, translated from the Rust sources:

* `src/rust/src/protocol.rs` — the wire message schema (`ClientMessage`,
  `ServerMessage`);
* `src/rust/src/server.rs` — the server session loop (`Users` registry,
  `handle_client_messages`, `handle_disconnect`);
* `src/rust/src/lib.rs` — the client side (`handle_server_messages`:
  `ClientDisconnected` handling and the `PlayerUpdate` reconciliation branch);
* `src/rust/src/player.rs` — facing and animation derivation
  (`player_movement_system`, `player_animation_system`, `INPUT_DEADZONE`).

Modelling conventions: `ClientId` (a transport-assigned unsigned integer in
`bevy_quinnet`) is `Nat`; `f32` coordinates and input axes are `ℚ` (every
branch the claims touch compares, adds, multiplies or squares, all exact in
`ℚ`; the single square root in the jitter test is handled by an explicit
bridging lemma, see `dist_sq`); Rust `HashMap<ClientId, String>` is an
association list `List (ClientId × String)` whose keys stay distinct because
the only insertion point is guarded by `contains_key`.  Message sends are
collected into an explicit output list instead of being pushed to a network
endpoint.
-/

/-- Connection identifier (`bevy_quinnet::shared::ClientId`), an unsigned
integer assigned by the transport.  Modelled as `Nat`. -/
abbrev ClientId := Nat

/-- Wire messages sent by clients (`protocol.rs`, `enum ClientMessage`). -/
inductive ClientMessage
| Join (name : String)
| Disconnect
| ChatMessage (message : String)
| PlayerUpdate (x y horizontal vertical : ℚ)
deriving DecidableEq

/-- Wire messages sent by the server (`protocol.rs`, `enum ServerMessage`).
The `usernames` payload of `InitClient` is the registry's association list. -/
inductive ServerMessage
| ClientConnected (client_id : ClientId) (username : String)
| ClientDisconnected (client_id : ClientId)
| ChatMessage (client_id : ClientId) (message : String)
| InitClient (client_id : ClientId) (usernames : List (ClientId × String))
| PlayerUpdate (client_id : ClientId) (x y horizontal vertical : ℚ)
deriving DecidableEq

/-- Server-side identity registry (`server.rs`, `struct Users`): the
authoritative `ClientId → display name` map. -/
structure Users where
  names : List (ClientId × String)
deriving DecidableEq

/-- `users.names.contains_key(&client_id)` on the registry's `HashMap`. -/
def Users.contains_key (u : Users) (id : ClientId) : Bool :=
  u.names.any (fun p => p.1 == id)

/-- The value-returning half of `users.names.remove(&client_id)`: the name
currently mapped to `id`, if any. -/
def Users.lookup_name (u : Users) (id : ClientId) : Option String :=
  (u.names.find? (fun p => p.1 == id)).map (fun p => p.2)

/-- The mutating half of `users.names.remove(&client_id)`: drop the entry
for `id`. -/
def Users.erase (u : Users) (id : ClientId) : Users :=
  { names := u.names.filter (fun p => p.1 != id) }

/-- `users.names.insert(client_id, name)`; in `server.rs` it is only reached
when `contains_key` was false, so prepending keeps keys distinct. -/
def Users.insert (u : Users) (id : ClientId) (name : String) : Users :=
  { names := (id, name) :: u.names }

/-- `users.names.keys()`: the broadcast recipient set. -/
def Users.keys (u : Users) : List ClientId :=
  u.names.map (fun p => p.1)

/-- One outbound transmission by the server: `endpoint.send_message` to a
single client, or `endpoint.send_group_message` / `try_send_group_message`
to a recipient list. -/
inductive Outgoing
| SendTo (target : ClientId) (msg : ServerMessage)
| Group (targets : List ClientId) (msg : ServerMessage)
deriving DecidableEq

/-- Shared disconnection routine (`server.rs`, `fn handle_disconnect`):
remove the id from the registry; if a name was removed, broadcast
`ClientDisconnected` to the remaining roster, otherwise only log.  The
function is total (no panic path is reachable in the unregistered case,
which sends nothing). -/
def handle_disconnect (users : Users) (client_id : ClientId) :
    Users × List Outgoing :=
  match users.lookup_name client_id with
  | some _ =>
    let users' := users.erase client_id
    (users',
      [Outgoing.Group users'.keys (ServerMessage.ClientDisconnected client_id)])
  | none => (users, [])

/-- Dispatch of one inbound client message (`server.rs`,
`fn handle_client_messages`, the `match message` body), returning the new
registry and the list of transmissions in the order the code issues them.
The transport-level `disconnect_client` call in the `Disconnect` arm closes
the socket and is not part of the message/registry state modelled here. -/
def handle_client_message (users : Users) (client_id : ClientId) :
    ClientMessage → Users × List Outgoing
| ClientMessage.Join name =>
  if users.contains_key client_id then
    (users, [])
  else
    let users' := users.insert client_id name
    (users',
      [Outgoing.SendTo client_id
          (ServerMessage.InitClient client_id users'.names),
       Outgoing.Group users'.keys
          (ServerMessage.ClientConnected client_id name)])
| ClientMessage.Disconnect => handle_disconnect users client_id
| ClientMessage.ChatMessage message =>
  (users,
    [Outgoing.Group users.keys (ServerMessage.ChatMessage client_id message)])
| ClientMessage.PlayerUpdate x y horizontal vertical =>
  (users,
    [Outgoing.Group users.keys
        (ServerMessage.PlayerUpdate client_id x y horizontal vertical)])

/-- A Join or Disconnect event, for replaying message logs against the
server registry. -/
inductive JDEvent
| join (id : ClientId) (name : String)
| disc (id : ClientId)

/-- Registry effect of one Join/Disconnect message, as dispatched by
`handle_client_messages`. -/
def server_step (u : Users) : JDEvent → Users
| JDEvent.join id name => (handle_client_message u id (ClientMessage.Join name)).1
| JDEvent.disc id => (handle_client_message u id ClientMessage.Disconnect).1

/-- Replay a whole Join/Disconnect log from the empty registry. -/
def replay (events : List JDEvent) : Users :=
  events.foldl server_step { names := [] }

/-- Specification-side predicate: `id` has an unmatched Join in `events`,
i.e. the most recent Join for `id` is not followed by a later Disconnect
for `id`.  Computed as: the last event mentioning `id` is a Join. -/
def unmatched_join (events : List JDEvent) (id : ClientId) : Bool :=
  events.foldl
    (fun b e =>
      match e with
      | JDEvent.join j _ => if j = id then true else b
      | JDEvent.disc j => if j = id then false else b)
    false

/-- Modulus of the `client_id as u32` truncation stored on the Godot
`PlayerNode` (`player.rs`, field `client_id: u32`). -/
def U32_MOD : Nat := 2 ^ 32

/-- Client-side view of one spawned player entity: the `u32` id stored on
its `PlayerNode` and its current rendered position. -/
structure PlayerEntityState where
  node_client_id : Nat
  pos_x : ℚ
  pos_y : ℚ
deriving DecidableEq

/-- Squared Euclidean distance between the entity's current rendered
position and a reported `(x, y)`.  The source (`lib.rs`, `PlayerUpdate`
arm) computes `((cx - x).powi(2) + (cy - y).powi(2)).sqrt()` and compares
it with `2.0`; over nonnegative reals `sqrt d > 2 ↔ d > 4`, so the
embedding keeps the exact rational `d` and compares with `4` — the
equivalence with the square-root form is proved in `two_lt_sqrt_iff`. -/
def dist_sq (e : PlayerEntityState) (x y : ℚ) : ℚ :=
  (e.pos_x - x) ^ 2 + (e.pos_y - y) ^ 2

/-- Effect of one inbound `ServerMessage::PlayerUpdate` on one player
entity (`lib.rs`, `handle_server_messages`, `PlayerUpdate` arm): only an
entity whose node id matches the truncated sender id, when the sender is
not the local player, and only when the position discrepancy exceeds the
2.0 jitter threshold, is snapped to `(x, y)`. -/
def apply_player_update (player_id client_id : ClientId) (x y : ℚ)
    (e : PlayerEntityState) : PlayerEntityState :=
  if e.node_client_id == client_id % U32_MOD && client_id != player_id then
    if 4 < dist_sq e x y then { e with pos_x := x, pos_y := y } else e
  else e

/-- The `PlayerInputEvent` the `PlayerUpdate` arm always emits, carrying
the sender id and velocity intent to the movement system. -/
structure PlayerInputEvent where
  client_id : ClientId
  horizontal : ℚ
  vertical : ℚ
deriving DecidableEq

/-- Whole-message effect of a `ServerMessage::PlayerUpdate`: every spawned
entity passes through `apply_player_update`, and one `PlayerInputEvent` is
sent regardless. -/
def handle_player_update_msg (self_id client_id : ClientId)
    (x y horizontal vertical : ℚ) (entities : List PlayerEntityState) :
    List PlayerEntityState × PlayerInputEvent :=
  (entities.map (apply_player_update self_id client_id x y),
   { client_id := client_id, horizontal := horizontal, vertical := vertical })

/-- Client session state touched by `ServerMessage::ClientDisconnected`
(`lib.rs`, `struct Users` on the client plus the chat transcript and the
set of spawned player entities, identified by owner id). -/
structure ClientState where
  self_id : ClientId
  names : List (ClientId × String)
  chat : List String
  players : List ClientId
deriving DecidableEq

/-- Effect of one `ServerMessage::ClientDisconnected` on the client
(`lib.rs`, `handle_server_messages`, `ClientDisconnected` arm): if the id
is in the local roster, remove it, append the system chat line, and
destroy that client's player entities; otherwise only log a warning. -/
def apply_client_disconnected (s : ClientState) (client_id : ClientId) :
    ClientState :=
  match (s.names.find? (fun p => p.1 == client_id)).map (fun p => p.2) with
  | some username =>
    { s with
      names := s.names.filter (fun p => p.1 != client_id),
      chat := s.chat ++ [username ++ " left"],
      players := s.players.filter (fun i => i != client_id) }
  | none => s

/-- `player.rs`: `const INPUT_DEADZONE: f32 = 0.2`. -/
def INPUT_DEADZONE : ℚ := 1 / 5

/-- Cardinal facing direction (`player.rs`, `enum FacingDir`). -/
inductive FacingDir
| Up
| Down
| Left
| Right
deriving DecidableEq

/-- Deadzone filtering applied before persisting input
(`player.rs`, `player_movement_system`: `if h.abs() < INPUT_DEADZONE
{ h = 0.0 }`). -/
def deadzone_filter (x : ℚ) : ℚ :=
  if |x| < INPUT_DEADZONE then 0 else x

/-- Facing update from the persisted input pair (`player.rs`,
`player_movement_system`, the `if h != 0.0 || v != 0.0` block): dominant
axis first, ties to the horizontal axis, sign picks the direction; an
all-zero pair leaves the facing unchanged. -/
def update_facing (h v : ℚ) (old : FacingDir) : FacingDir :=
  if h ≠ 0 ∨ v ≠ 0 then
    if |h| ≥ |v| then
      if h ≥ 0 then FacingDir.Right else FacingDir.Left
    else if v ≥ 0 then FacingDir.Down else FacingDir.Up
  else old

/-- Persisted per-entity input (`player.rs`, `struct PlayerInputState`). -/
structure PlayerInputState where
  horizontal : ℚ
  vertical : ℚ
deriving DecidableEq

/-- `player_animation_system`'s movement test:
`input_state.horizontal.abs() >= INPUT_DEADZONE ||
 input_state.vertical.abs() >= INPUT_DEADZONE`. -/
def is_moving (s : PlayerInputState) : Bool :=
  decide (INPUT_DEADZONE ≤ |s.horizontal|) ||
  decide (INPUT_DEADZONE ≤ |s.vertical|)

/-- Facing to animation-suffix string (`player.rs`, the `match facing.0`
in `player_animation_system`). -/
def dir_str : FacingDir → String
| FacingDir.Up => "up"
| FacingDir.Down => "down"
| FacingDir.Left => "left"
| FacingDir.Right => "right"

/-- Computed animation name (`player_animation_system`):
`run_<dir>` when moving, `idle_<dir>` otherwise. -/
def anim_name (s : PlayerInputState) (facing : FacingDir) : String :=
  if is_moving s then "run_" ++ dir_str facing else "idle_" ++ dir_str facing

/-- Last played animation (`player.rs`, `struct PlayerAnimState`). -/
structure PlayerAnimState where
  current : String
deriving DecidableEq

/-- One step of `player_animation_system` for one entity: compute the name
and issue a play command (the `Option String`) only when it differs from
the last emitted name. -/
def player_animation_step (s : PlayerInputState) (facing : FacingDir)
    (anim : PlayerAnimState) : PlayerAnimState × Option String :=
  let name := anim_name s facing
  if anim.current != name then ({ current := name }, some name) else (anim, none)

/-! ### Helper lemmas -/

theorem contains_key_insert (u : Users) (j i : ClientId) (n : String) :
    (u.insert j n).contains_key i = ((j == i) || u.contains_key i) := by
  simp [Users.insert, Users.contains_key]

theorem contains_key_erase (u : Users) (j i : ClientId) :
    (u.erase j).contains_key i =
      if j = i then false else u.contains_key i := by
  by_cases hji : j = i
  · subst hji
    rw [if_pos rfl, Bool.eq_false_iff]
    simp [Users.erase, Users.contains_key, List.any_eq_true, List.mem_filter]
  · rw [if_neg hji, Bool.eq_iff_iff]
    simp only [Users.erase, Users.contains_key, List.any_eq_true,
      List.mem_filter, bne_iff_ne, beq_iff_eq]
    constructor
    · rintro ⟨p, ⟨hp, _⟩, hpi⟩
      exact ⟨p, hp, hpi⟩
    · rintro ⟨p, hp, hpi⟩
      exact ⟨p, ⟨hp, by rw [hpi]; exact fun hij => hji hij.symm⟩, hpi⟩

theorem contains_key_false_of_lookup_none (u : Users) (j : ClientId)
    (h : u.lookup_name j = none) : u.contains_key j = false := by
  simp [Users.lookup_name, Option.map_eq_none', List.find?_eq_none] at h
  simp [Users.contains_key, List.any_eq_true]
  intro p hp
  exact h p hp

theorem lookup_name_erase_self (u : Users) (j : ClientId) :
    (u.erase j).lookup_name j = none := by
  simp [Users.erase, Users.lookup_name, Option.map_eq_none', List.find?_eq_none,
    List.mem_filter]

theorem not_mem_keys_erase (u : Users) (j : ClientId) :
    j ∉ (u.erase j).keys := by
  simp [Users.erase, Users.keys, List.mem_filter]

theorem contains_key_server_step (u : Users) (e : JDEvent) (i : ClientId) :
    (server_step u e).contains_key i =
      (match e with
       | JDEvent.join j _ => if j = i then true else u.contains_key i
       | JDEvent.disc j => if j = i then false else u.contains_key i) := by
  cases e with
  | join j n =>
    by_cases hc : u.contains_key j = true
    · by_cases hji : j = i
      · subst hji
        simp [server_step, handle_client_message, hc]
      · simp [server_step, handle_client_message, hc, hji]
    · by_cases hji : j = i
      · subst hji
        simp [server_step, handle_client_message, hc, contains_key_insert]
      · simp [server_step, handle_client_message, hc, contains_key_insert, hji]
  | disc j =>
    simp only [server_step, handle_client_message]
    cases hl : u.lookup_name j with
    | some n => simp [handle_disconnect, hl, contains_key_erase]
    | none =>
      by_cases hji : j = i
      · subst hji
        simp [handle_disconnect, hl, contains_key_false_of_lookup_none u j hl]
      · simp [handle_disconnect, hl, hji]

theorem foldl_contains (events : List JDEvent) (u : Users) (i : ClientId) :
    (events.foldl server_step u).contains_key i =
      events.foldl
        (fun b e =>
          match e with
          | JDEvent.join j _ => if j = i then true else b
          | JDEvent.disc j => if j = i then false else b)
        (u.contains_key i) := by
  induction events generalizing u with
  | nil => rfl
  | cons e rest ih =>
    rw [List.foldl_cons, List.foldl_cons, ih, contains_key_server_step]

/-! ### Claim theorems -/

/-- C1: for every incoming server `PlayerUpdate` whose connection id equals
the client's `SelfIdentity`, processing the message leaves every spawned
entity — in particular the locally controlled one — with its position
unchanged, for any `x`, `y`, `horizontal`, `vertical`: the position-setting
branch is never taken because the `client_id != player_id` conjunct is
false. -/
theorem C1_self_update_keeps_positions (self_id : ClientId)
    (x y horizontal vertical : ℚ) (entities : List PlayerEntityState) :
    (handle_player_update_msg self_id self_id x y horizontal vertical
        entities).1 = entities := by
  have h : apply_player_update self_id self_id x y = fun e => e := by
    funext e
    simp [apply_player_update]
  simp [handle_player_update_msg, h]

/-- C3: a `Join{name}` from a connection id already present in the registry
leaves the registry unchanged and sends no message at all: no `InitClient`,
no `ClientConnected` broadcast. -/
theorem C3_duplicate_join_noop (users : Users) (client_id : ClientId)
    (name : String) (hreg : users.contains_key client_id = true) :
    handle_client_message users client_id (ClientMessage.Join name) =
      (users, []) := by
  simp [handle_client_message, hreg]

/-- Witness for C3 at a concrete registry already holding id 1. -/
theorem C3_witness :
    (Users.mk [(1, "alice")]).contains_key 1 = true ∧
      handle_client_message (Users.mk [(1, "alice")]) 1
          (ClientMessage.Join "bob") = (Users.mk [(1, "alice")], []) :=
  ⟨by decide, C3_duplicate_join_noop (Users.mk [(1, "alice")]) 1 "bob" (by decide)⟩

/-- C4: `handle_disconnect` removes the id from the registry and, exactly
when a name was removed, broadcasts one `ClientDisconnected{connection_id}`
to the remaining roster, from which the departed id is excluded; for an
unregistered id it sends no broadcast (and, being total, cannot panic), so
a second run for the same id returns the once-disconnected state unchanged
and sends nothing. -/
theorem C4_handle_disconnect_spec (users : Users) (cid : ClientId) :
    (∀ n, users.lookup_name cid = some n →
        handle_disconnect users cid =
          (users.erase cid,
            [Outgoing.Group (users.erase cid).keys
                (ServerMessage.ClientDisconnected cid)]))
  ∧ (users.lookup_name cid = none → handle_disconnect users cid = (users, []))
  ∧ cid ∉ (users.erase cid).keys
  ∧ handle_disconnect (handle_disconnect users cid).1 cid =
      ((handle_disconnect users cid).1, []) := by
  refine ⟨?_, ?_, not_mem_keys_erase users cid, ?_⟩
  · intro n hn
    simp [handle_disconnect, hn]
  · intro hn
    simp [handle_disconnect, hn]
  · cases hl : users.lookup_name cid with
    | some n =>
      simp [handle_disconnect, hl, lookup_name_erase_self]
    | none =>
      simp [handle_disconnect, hl]

/-- Witness for C4 at a concrete two-member registry: disconnecting id 2
removes it and broadcasts only to the remaining member 1. -/
theorem C4_witness :
    handle_disconnect (Users.mk [(1, "alice"), (2, "bob")]) 2 =
      (Users.mk [(1, "alice")],
        [Outgoing.Group [1] (ServerMessage.ClientDisconnected 2)]) ∧
    handle_disconnect (Users.mk [(1, "alice")]) 2 =
      (Users.mk [(1, "alice")], []) := by
  constructor
  · exact ((C4_handle_disconnect_spec (Users.mk [(1, "alice"), (2, "bob")]) 2).1
      "bob" (by decide)).trans (by decide)
  · exact (C4_handle_disconnect_spec (Users.mk [(1, "alice")]) 2).2.1 (by decide)

/-- C5: for every finite sequence of Join and Disconnect messages applied
to an initially empty server registry, an id is in the final registry if
and only if its most recent Join is not followed by a later Disconnect. -/
theorem C5_replay_roster (events : List JDEvent) (i : ClientId) :
    (replay events).contains_key i = unmatched_join events i := by
  have h := foldl_contains events { names := [] } i
  simpa [replay, unmatched_join, Users.contains_key] using h

/-- C6: an accepted `Join{name}` from a fresh connection id first inserts
the id/name into the registry, then sends `InitClient` with the
post-insertion roster snapshot to the joining connection alone, and then
broadcasts `ClientConnected` to the post-insertion roster, whose recipient
set contains the newly joined member together with every previous member. -/
theorem C6_join_order (users : Users) (cid : ClientId) (name : String)
    (hnew : users.contains_key cid = false) :
    handle_client_message users cid (ClientMessage.Join name) =
      (users.insert cid name,
        [Outgoing.SendTo cid
            (ServerMessage.InitClient cid (users.insert cid name).names),
         Outgoing.Group (users.insert cid name).keys
            (ServerMessage.ClientConnected cid name)])
  ∧ cid ∈ (users.insert cid name).keys
  ∧ (cid, name) ∈ (users.insert cid name).names
  ∧ ∀ i, i ∈ users.keys → i ∈ (users.insert cid name).keys := by
  refine ⟨?_, ?_, ?_, ?_⟩
  · simp [handle_client_message, hnew]
  · simp [Users.insert, Users.keys]
  · simp [Users.insert]
  · intro i hi
    simp only [Users.insert, Users.keys, List.map_cons, List.mem_cons]
    exact Or.inr hi

/-- Witness for C6: id 2 joining a registry holding only id 1 receives the
full snapshot and the `ClientConnected` broadcast goes to both 2 and 1. -/
theorem C6_witness :
    handle_client_message (Users.mk [(1, "alice")]) 2 (ClientMessage.Join "bob") =
      (Users.mk [(2, "bob"), (1, "alice")],
        [Outgoing.SendTo 2 (ServerMessage.InitClient 2 [(2, "bob"), (1, "alice")]),
         Outgoing.Group [2, 1] (ServerMessage.ClientConnected 2 "bob")]) ∧
    2 ∈ (Users.mk [(2, "bob"), (1, "alice")]).keys := by
  have h := C6_join_order (Users.mk [(1, "alice")]) 2 "bob" (by decide)
  exact ⟨h.1.trans (by decide), by simpa using h.2.1⟩

/-- C9: applying the same `ClientDisconnected{connection_id}` twice in a
row on a client equals applying it once — the second application removes
nothing from the roster, appends no chat entry and destroys no entity. -/
theorem C9_client_disconnected_idempotent (s : ClientState) (cid : ClientId) :
    apply_client_disconnected (apply_client_disconnected s cid) cid =
      apply_client_disconnected s cid := by
  rcases h : s.names.find? (fun p => p.1 == cid) with _ | p
  · simp [apply_client_disconnected, h]
  · have h2 : ((s.names.filter (fun q => q.1 != cid)).find?
        (fun q => q.1 == cid)) = none := by
      simp [List.find?_eq_none, List.mem_filter]
    simp [apply_client_disconnected, h, h2]

/-- C10: the server's `ChatMessage` and `PlayerUpdate` arms never mutate
the identity registry and place no registration requirement on the sender:
for every registry and every connection id — registered or not — the
message is broadcast verbatim to the current roster, carrying the sender's
id. -/
theorem C10_relay_pure (users : Users) (cid : ClientId) (msg : String)
    (x y h v : ℚ) :
    ((handle_client_message users cid (ClientMessage.ChatMessage msg)).1
        = users)
  ∧ ((handle_client_message users cid (ClientMessage.PlayerUpdate x y h v)).1
        = users)
  ∧ ((handle_client_message users cid (ClientMessage.ChatMessage msg)).2
        = [Outgoing.Group users.keys (ServerMessage.ChatMessage cid msg)])
  ∧ ((handle_client_message users cid (ClientMessage.PlayerUpdate x y h v)).2
        = [Outgoing.Group users.keys
              (ServerMessage.PlayerUpdate cid x y h v)]) :=
  ⟨rfl, rfl, rfl, rfl⟩

/-- Bridging lemma for the jitter test: the source compares
`sqrt(dx² + dy²) > 2.0`; over the reals this is equivalent to the exact
rational comparison `dx² + dy² > 4` used in `apply_player_update`. -/
theorem two_lt_sqrt_iff (q : ℚ) :
    (2 : ℝ) < Real.sqrt (q : ℝ) ↔ (4 : ℚ) < q := by
  rw [Real.lt_sqrt (by norm_num),
    show ((2 : ℝ)) ^ 2 = ((4 : ℚ) : ℝ) by norm_num]
  exact_mod_cast Iff.rfl

/-- C2: for an incoming `PlayerUpdate` whose connection id differs from
`SelfIdentity`, the matching entity is snapped to the reported `(x, y)`
exactly when the Euclidean distance between its current position and
`(x, y)` is strictly greater than 2.0, and left unchanged otherwise.  The
first conjunct ties the square-root distance test of the source to the
exact rational comparison of the embedding. -/
theorem C2_remote_update_snap (self_id client_id : ClientId)
    (e : PlayerEntityState) (x y : ℚ)
    (hneq : client_id ≠ self_id)
    (hnode : e.node_client_id = client_id % U32_MOD) :
    ((2 : ℝ) < Real.sqrt ((dist_sq e x y : ℚ) : ℝ) ↔ 4 < dist_sq e x y)
  ∧ (4 < dist_sq e x y →
      apply_player_update self_id client_id x y e =
        { e with pos_x := x, pos_y := y })
  ∧ (dist_sq e x y ≤ 4 →
      apply_player_update self_id client_id x y e = e) := by
  refine ⟨two_lt_sqrt_iff (dist_sq e x y), ?_, ?_⟩
  · intro h4
    simp [apply_player_update, hnode, hneq, h4]
  · intro h4
    simp [apply_player_update, hnode, hneq, not_lt.mpr h4]

/-- Witness for C2: from current position `(0,0)` a remote update `(1,1)`
(distance √2 ≤ 2) leaves the position unchanged, while `(3,3)`
(distance √18 > 2) snaps the position to `(3,3)`. -/
theorem C2_witness :
    apply_player_update 0 1 1 1
        { node_client_id := 1, pos_x := 0, pos_y := 0 } =
      { node_client_id := 1, pos_x := 0, pos_y := 0 } ∧
    apply_player_update 0 1 3 3
        { node_client_id := 1, pos_x := 0, pos_y := 0 } =
      { node_client_id := 1, pos_x := 3, pos_y := 3 } := by
  constructor
  · exact (C2_remote_update_snap 0 1
        { node_client_id := 1, pos_x := 0, pos_y := 0 } 1 1
        (by decide) (by decide)).2.2 (by norm_num [dist_sq])
  · exact ((C2_remote_update_snap 0 1
        { node_client_id := 1, pos_x := 0, pos_y := 0 } 3 3
        (by decide) (by decide)).2.1 (by norm_num [dist_sq])).trans rfl

/-- C7: facing is derived from the persisted nonzero deadzone-filtered
input pair: when `|h| ≥ |v|` the facing is Right for nonnegative `h` and
Left for negative `h`, otherwise Down for nonnegative `v` and Up for
negative `v`; ties choose the horizontal axis (they fall in the first
case), and an all-zero filtered pair leaves the facing unchanged.  The
last two conjuncts check the reference inputs `(0.5, 0.1) ↦ Right` and
`(0.1, -0.5) ↦ Up`. -/
theorem C7_facing_derivation (h v : ℚ) (old : FacingDir) :
    ((h ≠ 0 ∨ v ≠ 0) → |v| ≤ |h| → 0 ≤ h →
        update_facing h v old = FacingDir.Right)
  ∧ (|v| ≤ |h| → h < 0 → update_facing h v old = FacingDir.Left)
  ∧ (|h| < |v| → 0 ≤ v → update_facing h v old = FacingDir.Down)
  ∧ (|h| < |v| → v < 0 → update_facing h v old = FacingDir.Up)
  ∧ (h = 0 → v = 0 → update_facing h v old = old)
  ∧ update_facing (1/2) (1/10) old = FacingDir.Right
  ∧ update_facing (1/10) (-(1/2)) old = FacingDir.Up := by
  refine ⟨?_, ?_, ?_, ?_, ?_, ?_, ?_⟩
  · intro hnz hge hpos
    simp only [update_facing]
    rw [if_pos hnz, if_pos hge, if_pos hpos]
  · intro hge hneg
    simp only [update_facing]
    rw [if_pos (Or.inl (ne_of_lt hneg)), if_pos hge, if_neg (not_le.mpr hneg)]
  · intro hlt hpos
    simp only [update_facing]
    rw [if_pos (Or.inr (abs_pos.mp (lt_of_le_of_lt (abs_nonneg h) hlt))),
      if_neg (not_le.mpr hlt), if_pos hpos]
  · intro hlt hneg
    simp only [update_facing]
    rw [if_pos (Or.inr (ne_of_lt hneg)), if_neg (not_le.mpr hlt),
      if_neg (not_le.mpr hneg)]
  · intro h0 v0
    subst h0
    subst v0
    simp [update_facing]
  · simp only [update_facing]
    rw [if_pos (Or.inl (by norm_num)),
      if_pos (by
        rw [abs_of_nonneg (by norm_num : (0 : ℚ) ≤ 1 / 10),
          abs_of_nonneg (by norm_num : (0 : ℚ) ≤ 1 / 2)]
        norm_num),
      if_pos (by norm_num : (0 : ℚ) ≤ 1 / 2)]
  · simp only [update_facing]
    rw [if_pos (Or.inl (by norm_num)),
      if_neg (not_le.mpr (by
        rw [abs_neg, abs_of_nonneg (by norm_num : (0 : ℚ) ≤ 1 / 10),
          abs_of_nonneg (by norm_num : (0 : ℚ) ≤ 1 / 2)]
        norm_num)),
      if_neg (by norm_num : ¬((0 : ℚ) ≤ -(1 / 2)))]

/-- Witness for C7 at the reference inputs, with prior facing Down:
`(0.5, 0.1)` gives Right via the dominant-horizontal case, and
`(0.1, -0.5)` gives Up via the dominant-vertical case. -/
theorem C7_witness :
    update_facing (1/2) (1/10) FacingDir.Down = FacingDir.Right ∧
    update_facing (1/10) (-(1/2)) FacingDir.Down = FacingDir.Up := by
  constructor
  · exact (C7_facing_derivation (1/2) (1/10) FacingDir.Down).1
      (Or.inl (by norm_num))
      (by
        rw [abs_of_nonneg (by norm_num : (0 : ℚ) ≤ 1 / 10),
          abs_of_nonneg (by norm_num : (0 : ℚ) ≤ 1 / 2)]
        norm_num)
      (by norm_num)
  · exact (C7_facing_derivation (1/10) (-(1/2)) FacingDir.Down).2.2.2.1
      (by
        rw [abs_neg, abs_of_nonneg (by norm_num : (0 : ℚ) ≤ 1 / 10),
          abs_of_nonneg (by norm_num : (0 : ℚ) ≤ 1 / 2)]
        norm_num)
      (by norm_num)

/-- C8 counterexample: with persisted input `(0.2, 0)` — a value the
deadzone filter passes through unchanged — the computed animation is
`run_right`, although neither axis magnitude strictly exceeds the 0.2
deadzone; the source tests `abs >= INPUT_DEADZONE`, not a strict
comparison, so the claim as stated (strict "exceeds") is false here. -/
theorem C8_counterexample :
    deadzone_filter (1/5) = 1/5 ∧
    anim_name { horizontal := 1/5, vertical := 0 } FacingDir.Right =
      "run_right" ∧
    ¬(INPUT_DEADZONE < |(1/5 : ℚ)| ∨ INPUT_DEADZONE < |(0 : ℚ)|) := by
  refine ⟨?_, ?_, ?_⟩
  · rw [deadzone_filter, if_neg]
    rw [abs_of_nonneg (by norm_num : (0 : ℚ) ≤ 1 / 5)]
    norm_num [INPUT_DEADZONE]
  · have hmov : is_moving { horizontal := 1/5, vertical := 0 } = true := by
      simp only [is_moving, Bool.or_eq_true, decide_eq_true_eq]
      exact Or.inl (by
        rw [abs_of_nonneg (by norm_num : (0 : ℚ) ≤ 1 / 5)]
        norm_num [INPUT_DEADZONE])
    rw [anim_name, if_pos hmov]
    rfl
  · rw [abs_of_nonneg (by norm_num : (0 : ℚ) ≤ 1 / 5), abs_zero]
    norm_num [INPUT_DEADZONE]

/-- C8 (amended): the computed animation is `run_<facing>` exactly when
the persisted horizontal or vertical input magnitude is greater than or
equal to the 0.2 input deadzone (the source compares with `>=`), and
`idle_<facing>` otherwise; the play command is issued exactly when the
computed name differs from the last emitted name, and the recorded name
afterwards is always the computed one. -/
theorem C8_animation_amended (s : PlayerInputState) (f : FacingDir)
    (a : PlayerAnimState) :
    (anim_name s f = "run_" ++ dir_str f ↔
       INPUT_DEADZONE ≤ |s.horizontal| ∨ INPUT_DEADZONE ≤ |s.vertical|)
  ∧ (anim_name s f = "idle_" ++ dir_str f ↔
       ¬(INPUT_DEADZONE ≤ |s.horizontal| ∨ INPUT_DEADZONE ≤ |s.vertical|))
  ∧ ((player_animation_step s f a).2 = some (anim_name s f) ↔
       a.current ≠ anim_name s f)
  ∧ ((player_animation_step s f a).2 = none ↔ a.current = anim_name s f)
  ∧ (player_animation_step s f a).1.current = anim_name s f := by
  have hne : ∀ g : FacingDir, ("run_" ++ dir_str g) ≠ ("idle_" ++ dir_str g) := by
    intro g
    cases g <;> decide
  have hmov_case : ∀ hm : ¬(INPUT_DEADZONE ≤ |s.horizontal| ∨
      INPUT_DEADZONE ≤ |s.vertical|), is_moving s = false := by
    intro hm
    push_neg at hm
    simp only [is_moving, Bool.or_eq_false_iff, decide_eq_false_iff_not, not_le]
    exact hm
  refine ⟨?_, ?_, ?_, ?_, ?_⟩
  · by_cases hm : INPUT_DEADZONE ≤ |s.horizontal| ∨ INPUT_DEADZONE ≤ |s.vertical|
    · have hmov : is_moving s = true := by
        simp only [is_moving, Bool.or_eq_true, decide_eq_true_eq]
        exact hm
      simp [anim_name, hmov, hm]
    · have hmov : is_moving s = false := hmov_case hm
      simp [anim_name, hmov, hm, Ne.symm (hne f)]
  · by_cases hm : INPUT_DEADZONE ≤ |s.horizontal| ∨ INPUT_DEADZONE ≤ |s.vertical|
    · have hmov : is_moving s = true := by
        simp only [is_moving, Bool.or_eq_true, decide_eq_true_eq]
        exact hm
      simp [anim_name, hmov, hm, hne f]
    · have hmov : is_moving s = false := hmov_case hm
      simp [anim_name, hmov, hm]
  · by_cases hcur : a.current = anim_name s f
    · simp [player_animation_step, hcur]
    · simp [player_animation_step, hcur]
  · by_cases hcur : a.current = anim_name s f
    · simp [player_animation_step, hcur]
    · simp [player_animation_step, hcur]
  · by_cases hcur : a.current = anim_name s f
    · simp [player_animation_step, hcur]
    · simp [player_animation_step, hcur]
